import Mathlib

/-!
Verification development for the tauri-plugin-oauth repository: a local
HTTP listener that captures browser OAuth redirects.

The repository ships TypeScript bindings (src/guest-js/index.ts) that
forward `start` and `cancel` calls across the plugin boundary, plus
subscription helpers `onUrl` and `onInvalidUrl` over two named event
channels. The server core (port selection, session registry, request
parsing, responder, event emission) sits behind this boundary; here it is
embedded from its specification, while the binding-level definitions are
embedded from src/guest-js/index.ts.
-/

namespace Oauth

/-- Configuration options for the OAuth server, from src/guest-js/index.ts
(OauthConfig): `ports` is an optional list of candidate port numbers,
`response` is an optional custom HTML body. -/
structure OauthConfig where
  ports : Option (List Nat) := none
  response : Option String := none
deriving Repr, DecidableEq

/-- Modelled from the spec: a Session is one bound listening port together
with its resolved response body; one Session per active port. -/
structure Session where
  port : Nat
  response : Option String
deriving Repr, DecidableEq

/-- Modelled from the spec: the SessionRegistry is a mapping from port
number to Session with unique keys, held as an association list. -/
abbrev SessionRegistry := List (Nat × Session)

/-- Look a port up in the registry. -/
def SessionRegistry.lookup (reg : SessionRegistry) (p : Nat) : Option Session :=
  (List.find? (fun e => e.1 == p) reg).map Prod.snd

/-- Remove the entry for a port from the registry. -/
def SessionRegistry.remove (reg : SessionRegistry) (p : Nat) : SessionRegistry :=
  List.filter (fun e => e.1 != p) reg

/-- The keys (ports) of the registry. -/
def SessionRegistry.keys (reg : SessionRegistry) : List Nat :=
  List.map Prod.fst reg

/-- Modelled from the spec: the whole-process state the registry
operations act on: the registry itself plus the set of ports on which
this process currently holds a bound listener socket. -/
structure SysState where
  registry : SessionRegistry
  bound : List Nat
deriving DecidableEq

/-- The initial state: no sessions, no bound listeners. -/
def SysState.init : SysState := ⟨[], []⟩

/-- Error taxonomy of the call surface, from the spec: BindError carries
the exhausted candidates, NotRunning names the offending port. -/
inductive OauthError where
  | bindError (candidates : List Nat)
  | notRunning (port : Nat)
deriving Repr, DecidableEq

instance {ε α : Type} [DecidableEq ε] [DecidableEq α] : DecidableEq (Except ε α) :=
  fun x y =>
    match x, y with
    | .ok a, .ok b =>
      if h : a = b then isTrue (by rw [h]) else isFalse (by intro hh; cases hh; exact h rfl)
    | .error a, .error b =>
      if h : a = b then isTrue (by rw [h]) else isFalse (by intro hh; cases hh; exact h rfl)
    | .ok _, .error _ => isFalse (by intro h; cases h)
    | .error _, .ok _ => isFalse (by intro h; cases h)

/-- Modelled from the spec: the Port Selector. Given the bindability of
each port (`free`), the OS answer to an ephemeral-port request (`eph`,
none when even that fails) and the candidate list, it picks the first
bindable candidate; an empty or absent list asks the OS for an ephemeral
port; a non-empty list whose candidates all fail yields a BindError naming
the exhausted candidates, with no ephemeral fallback. -/
def selectPort (free : Nat → Bool) (eph : Option Nat)
    (ports : Option (List Nat)) : Except OauthError Nat :=
  match ports with
  | none => match eph with
    | some p => .ok p
    | none => .error (.bindError [])
  | some [] => match eph with
    | some p => .ok p
    | none => .error (.bindError [])
  | some l => match l.find? free with
    | some p => .ok p
    | none => .error (.bindError l)

/-- Modelled from the spec: `start(config)` runs the Port Selector and the
listener bind; on success it inserts a new Session keyed by the resulting
port, records the bound listener, and returns that port; on failure it
returns the BindError and leaves the state unchanged. -/
def start (cfg : OauthConfig) (free : Nat → Bool) (eph : Option Nat)
    (s : SysState) : Except OauthError Nat × SysState :=
  match selectPort free eph cfg.ports with
  | .ok p => (.ok p, ⟨(p, ⟨p, cfg.response⟩) :: s.registry, p :: s.bound⟩)
  | .error e => (.error e, s)

/-- Modelled from the spec: `cancel(port)` looks the Session up; if absent
it fails with NotRunning naming the port and changes nothing; if present
it signals the accept loop, waits for the socket to close (the port
leaves the bound set), removes the registry entry, and succeeds. -/
def cancel (port : Nat) (s : SysState) : Except OauthError Unit × SysState :=
  match s.registry.lookup port with
  | none => (.error (.notRunning port), s)
  | some _ => (.ok (), ⟨s.registry.remove port, s.bound.filter (fun q => q != port)⟩)

/-- Modelled from the spec: process-wide teardown cancels every remaining
Session, releasing all bound ports. -/
def teardown (_s : SysState) : SysState := SysState.init

/-! ### Request Parser and Validator -/

/-- Split a character list on a separator character; adjacent separators
yield empty groups, mirroring splitting a string on a one-character
separator. -/
def splitOnChar (sep : Char) : List Char → List (List Char)
  | [] => [[]]
  | c :: rest =>
    let r := splitOnChar sep rest
    if c == sep then [] :: r
    else match r with
      | [] => [[c]]
      | g :: gs => (c :: g) :: gs

/-- Rejoin groups with the separator between them. -/
def joinWithChar (sep : Char) : List (List Char) → List Char
  | [] => []
  | [g] => g
  | g :: gs => g ++ sep :: joinWithChar sep gs

/-- The request line is the first line of the request: the characters up
to the first carriage return or line feed. -/
def firstLine (req : String) : List Char :=
  req.data.takeWhile (fun c => c != '\r' && c != '\n')

/-- Modelled from the spec: parse an HTTP request line into method,
request target and version; a line that is not three space-separated
tokens is malformed. -/
def parseRequestLine (line : List Char) : Option (String × String × String) :=
  match splitOnChar ' ' line with
  | [m, t, v] => some (String.mk m, String.mk t, String.mk v)
  | _ => none

/-- The query string of a request target: everything after the first
question mark, or none when the target has no question mark. -/
def queryOf (target : String) : Option String :=
  match splitOnChar '?' target.data with
  | _ :: rest@(_ :: _) => some (String.mk (joinWithChar '?' rest))
  | _ => none

/-- Numeric value of a hexadecimal digit. -/
def hexVal (c : Char) : Option Nat :=
  if '0' ≤ c ∧ c ≤ '9' then some (c.toNat - '0'.toNat)
  else if 'a' ≤ c ∧ c ≤ 'f' then some (c.toNat - 'a'.toNat + 10)
  else if 'A' ≤ c ∧ c ≤ 'F' then some (c.toNat - 'A'.toNat + 10)
  else none

/-- Percent-decoding over a character list: a percent sign followed by two
hex digits becomes the encoded code point; a malformed escape passes
through unchanged. -/
def percentDecodeList : List Char → List Char
  | [] => []
  | '%' :: c1 :: c2 :: rest =>
    match hexVal c1, hexVal c2 with
    | some a, some b => Char.ofNat (16 * a + b) :: percentDecodeList rest
    | _, _ => '%' :: c1 :: c2 :: percentDecodeList rest
  | c :: rest => c :: percentDecodeList rest

/-- Percent-decoding of a string. -/
def percentDecode (s : String) : String :=
  String.mk (percentDecodeList s.data)

/-- Decode one key=value pair of a query string. -/
def parseQueryPair (pair : List Char) : String × String :=
  match splitOnChar '=' pair with
  | [] => ("", "")
  | [k] => (percentDecode (String.mk k), "")
  | k :: rest => (percentDecode (String.mk k), percentDecode (String.mk (joinWithChar '=' rest)))

/-- Modelled from the spec: decode the query parameters of a query string,
splitting on ampersands and equals signs and percent-decoding both sides. -/
def parseQuery (q : String) : List (String × String) :=
  (splitOnChar '&' q.data).map parseQueryPair

/-- Outcome of parsing one connection, from the spec data model: a
CapturedRedirect carries the full original URL and the decoded query
parameters; an InvalidRedirect carries a human-readable reason. -/
inductive OauthEvent where
  | captured (rawUrl : String) (params : List (String × String))
  | invalid (reason : String)
deriving Repr, DecidableEq

/-- Whether the outcome is a captured redirect. -/
def OauthEvent.isCaptured : OauthEvent → Bool
  | .captured _ _ => true
  | .invalid _ => false

/-- Modelled from the spec: classify one request. The minimal validity bar
is method GET and a non-empty query string; a valid request yields a
CapturedRedirect with the full original URL and the decoded parameters,
anything else yields an InvalidRedirect with a reason. -/
def classifyRequest (req : String) : OauthEvent :=
  match parseRequestLine (firstLine req) with
  | none => .invalid "malformed request line"
  | some (m, t, _) =>
    if m != "GET" then .invalid ("unsupported method: " ++ m)
    else match queryOf t with
      | none => .invalid "missing query string"
      | some q =>
        if q == "" then .invalid "empty query string"
        else .captured t (parseQuery q)

/-- The validity bar of the spec, stated independently of the event
pipeline: the request line parses, the method is GET and the query string
is non-empty. -/
def isValidRedirectRequest (req : String) : Bool :=
  match parseRequestLine (firstLine req) with
  | some (m, t, _) =>
    m == "GET" && (match queryOf t with
      | some q => q != ""
      | none => false)
  | none => false

/-! ### Responder -/

/-- An HTTP response as the Responder produces it. -/
structure HttpResponse where
  status : Nat
  contentType : String
  body : String
deriving Repr, DecidableEq

/-- Modelled from the spec: the fixed default HTML page used when the
caller supplied no response override. -/
def defaultResponseBody : String :=
  "<html><body>OAuth process completed. You may close this window.</body></html>"

/-- Modelled from the spec: the Responder always writes a 200-status HTML
response whose body is the configured override when present and the
default page otherwise, independent of the validity outcome. -/
def respond (cfg : OauthConfig) : HttpResponse :=
  ⟨200, "text/html", cfg.response.getD defaultResponseBody⟩

/-- Modelled from the spec: handling one accepted connection runs the
Parser/Validator and the Responder; the response is written and exactly
one event is produced. -/
def handleConn (cfg : OauthConfig) (req : String) : HttpResponse × OauthEvent :=
  (respond cfg, classifyRequest req)

/-- The single event handling one connection emits. -/
def connEvent (cfg : OauthConfig) (req : String) : OauthEvent :=
  (handleConn cfg req).2

/-- Modelled from the spec: the accept loop of one Session processes its
accepted connections in acceptance order, appending the event of each
connection to the emitted trace. -/
def runSession (cfg : OauthConfig) (conns : List String) : List OauthEvent :=
  conns.foldl (fun trace req => trace ++ [connEvent cfg req]) []

/-! ### Event channel and subscriptions -/

/-- An event as delivered to a subscriber callback, carrying the payload
string (after Event of the @tauri-apps/api event module). -/
structure TauriEvent where
  payload : String
deriving Repr, DecidableEq

/-- One registered subscriber: an identifier, the channel it listens on
and its handler. -/
structure Subscriber (α : Type) where
  id : Nat
  channel : String
  handler : TauriEvent → α

/-- The set of current subscribers together with the next fresh
identifier. -/
structure EventBus (α : Type) where
  subscribers : List (Subscriber α)
  nextId : Nat

/-- The bus with no subscribers. -/
def EventBus.empty {α : Type} : EventBus α := ⟨[], 0⟩

/-- Modelled from the spec: subscription registration appends a subscriber
for a channel and returns its identifier as the deregistration handle. -/
def listen {α : Type} (channel : String) (handler : TauriEvent → α)
    (bus : EventBus α) : Nat × EventBus α :=
  (bus.nextId, ⟨bus.subscribers ++ [⟨bus.nextId, channel, handler⟩], bus.nextId + 1⟩)

/-- Modelled from the spec: deregistering removes exactly the subscriber
with the given identifier. -/
def unlisten {α : Type} (id : Nat) (bus : EventBus α) : EventBus α :=
  ⟨bus.subscribers.filter (fun l => l.id != id), bus.nextId⟩

/-- Modelled from the spec: emitting on a channel invokes the handler of
every current subscriber of that channel with the payload, returning the
deliveries as subscriber-identifier and handler-result pairs. -/
def emit {α : Type} (channel : String) (payload : String)
    (bus : EventBus α) : List (Nat × α) :=
  (bus.subscribers.filter (fun l => l.channel == channel)).map
    (fun l => (l.id, l.handler ⟨payload⟩))

/-- The channel valid redirects are emitted on, from src/guest-js/index.ts. -/
def urlChannel : String := "oauth://url"

/-- The channel invalid redirects are emitted on, from src/guest-js/index.ts. -/
def invalidUrlChannel : String := "oauth://invalid-url"

/-- From src/guest-js/index.ts: onUrl subscribes the callback on the
oauth url channel, handing it the payload of each event. -/
def onUrl {α : Type} (callback : String → α) (bus : EventBus α) :
    Nat × EventBus α :=
  listen urlChannel (fun event => callback event.payload) bus

/-- From src/guest-js/index.ts: onInvalidUrl subscribes the callback on
the oauth invalid-url channel, handing it the payload of each event. -/
def onInvalidUrl {α : Type} (callback : String → α) (bus : EventBus α) :
    Nat × EventBus α :=
  listen invalidUrlChannel (fun event => callback event.payload) bus

/-- The channel an outcome is emitted on: captured redirects go to the
url channel, invalid ones to the invalid-url channel (spec event kinds
redirect-captured and redirect-invalid). -/
def eventChannel : OauthEvent → String
  | .captured _ _ => urlChannel
  | .invalid _ => invalidUrlChannel

/-- The payload of an outcome: the full redirect URL string for captured
redirects, the error description for invalid ones (spec section 6). -/
def eventPayload : OauthEvent → String
  | .captured url _ => url
  | .invalid reason => reason

/-- Emitting one outcome to the bus on its channel with its payload. -/
def emitEvent {α : Type} (ev : OauthEvent) (bus : EventBus α) : List (Nat × α) :=
  emit (eventChannel ev) (eventPayload ev) bus

/-- The deliveries a given subscriber receives out of one emission. -/
def deliveredTo {α : Type} (i : Nat) (outs : List (Nat × α)) : List α :=
  (outs.filter (fun d => d.1 == i)).map Prod.snd

/-! ### Supporting lemmas -/

/-- A port the Port Selector returns is a bindable member of the
candidate list, unless it came from the ephemeral request. -/
lemma selectPort_ok_cases (free : Nat → Bool) (eph : Option Nat)
    (ports : Option (List Nat)) (p : Nat)
    (h : selectPort free eph ports = .ok p) : free p = true ∨ eph = some p := by
  match ports with
  | none =>
    cases eph with
    | none => simp [selectPort] at h
    | some e => right; simp [selectPort] at h; rw [h]
  | some [] =>
    cases eph with
    | none => simp [selectPort] at h
    | some e => right; simp [selectPort] at h; rw [h]
  | some (a :: as) =>
    cases hf : (a :: as).find? free with
    | none => simp [selectPort, hf] at h
    | some q =>
      left
      simp [selectPort, hf] at h
      rw [← h]
      exact List.find?_some hf

/-- A port the Port Selector returns for a non-empty candidate list is a
member of that list. -/
lemma selectPort_ok_mem (free : Nat → Bool) (eph : Option Nat)
    (l : List Nat) (p : Nat) (hne : l ≠ [])
    (h : selectPort free eph (some l) = .ok p) : p ∈ l := by
  match l, hne with
  | a :: as, _ =>
    cases hf : (a :: as).find? free with
    | none => simp [selectPort, hf] at h
    | some q =>
      simp [selectPort, hf] at h
      rw [← h]
      exact List.mem_of_find?_eq_some hf

/-- Removing a key keeps or drops the head entry according to its key. -/
lemma remove_cons (e : Nat × Session) (es : SessionRegistry) (p : Nat) :
    SessionRegistry.remove (e :: es) p =
      if e.1 = p then SessionRegistry.remove es p
      else e :: SessionRegistry.remove es p := by
  by_cases h : e.1 = p <;> simp [SessionRegistry.remove, List.filter_cons, h]

/-- Looking a key up skips or returns the head entry according to its key. -/
lemma lookup_cons (e : Nat × Session) (es : SessionRegistry) (q : Nat) :
    SessionRegistry.lookup (e :: es) q =
      if e.1 = q then some e.2 else SessionRegistry.lookup es q := by
  by_cases h : e.1 = q <;> simp [SessionRegistry.lookup, List.find?_cons, h]

/-- Looking a key up after removing it yields nothing. -/
lemma lookup_remove_self (reg : SessionRegistry) (p : Nat) :
    (reg.remove p).lookup p = none := by
  induction reg with
  | nil => rfl
  | cons e es ih =>
    rw [remove_cons]
    by_cases h : e.1 = p
    · rw [if_pos h]; exact ih
    · rw [if_neg h, lookup_cons, if_neg h]; exact ih

/-- Removing one key leaves every other key's entry untouched. -/
lemma lookup_remove_ne (reg : SessionRegistry) (p q : Nat) (h : q ≠ p) :
    (reg.remove p).lookup q = reg.lookup q := by
  induction reg with
  | nil => rfl
  | cons e es ih =>
    rw [remove_cons, lookup_cons]
    by_cases h1 : e.1 = p
    · have h2 : ¬e.1 = q := by rw [h1]; exact fun hh => h hh.symm
      rw [if_pos h1, if_neg h2]; exact ih
    · rw [if_neg h1, lookup_cons]
      by_cases h2 : e.1 = q
      · rw [if_pos h2, if_pos h2]
      · rw [if_neg h2, if_neg h2]; exact ih

/-- The keys after a removal are the old keys without the removed port. -/
lemma keys_remove (reg : SessionRegistry) (p : Nat) :
    (reg.remove p).keys = reg.keys.filter (fun q => q != p) := by
  induction reg with
  | nil => rfl
  | cons e es ih =>
    by_cases h : e.1 = p <;>
      simp [SessionRegistry.remove, SessionRegistry.keys, List.filter_cons, h] at * <;>
      exact ih

/-- A session trace is the per-connection event map. -/
lemma runSession_eq_map (cfg : OauthConfig) (conns : List String) :
    runSession cfg conns = conns.map (connEvent cfg) := by
  have haux : ∀ (cs : List String) (acc : List OauthEvent),
      cs.foldl (fun trace req => trace ++ [connEvent cfg req]) acc =
        acc ++ cs.map (connEvent cfg) := by
    intro cs
    induction cs with
    | nil => simp
    | cons c cs ih => intro acc; simp [ih]
  simpa using haux conns []

/-! ### C1: successful start registers exactly one Session -/

/-- C1: for every call to start with a non-empty candidate port list in
which at least one port is bindable (and no already-held port reported
bindable), start returns a port drawn from that list, and immediately
afterwards exactly one Session is registered in the SessionRegistry under
that returned port. -/
theorem start_registers_session (cfg : OauthConfig) (free : Nat → Bool)
    (eph : Option Nat) (s : SysState) (l : List Nat)
    (hports : cfg.ports = some l) (hne : l ≠ [])
    (hfree : ∃ p ∈ l, free p = true)
    (hheld : ∀ q ∈ s.registry.keys, free q = false) :
    ∃ p ∈ l, (start cfg free eph s).1 = .ok p ∧
      (start cfg free eph s).2.registry.keys.count p = 1 ∧
      (start cfg free eph s).2.registry.lookup p = some ⟨p, cfg.response⟩ := by
  have hsome : (l.find? free).isSome := by
    rw [List.find?_isSome]
    exact hfree
  obtain ⟨p, hp⟩ := Option.isSome_iff_exists.mp hsome
  have hmem := List.mem_of_find?_eq_some hp
  have hfp := List.find?_some hp
  have hsel : selectPort free eph (some l) = .ok p := by
    match l, hne with
    | a :: as, _ => simp [selectPort, hp]
  have hpnot : p ∉ s.registry.keys := by
    intro hmem2
    rw [hheld p hmem2] at hfp
    cases hfp
  refine ⟨p, hmem, ?_, ?_, ?_⟩
  · simp [start, hports, hsel]
  · simp only [start, hports, hsel, SessionRegistry.keys, List.map_cons]
    rw [List.count_cons_self]
    have : (s.registry.keys.count p) = 0 := List.count_eq_zero.mpr hpnot
    simp only [SessionRegistry.keys] at this
    omega
  · simp [start, hports, hsel, SessionRegistry.lookup, List.find?_cons]

/-- Concrete instance of start_registers_session. -/
theorem start_registers_session_witness :
    ∃ p ∈ [8000, 8001],
      (start ⟨some [8000, 8001], none⟩ (fun q => q == 8001) none SysState.init).1 = .ok p ∧
      (start ⟨some [8000, 8001], none⟩ (fun q => q == 8001) none
        SysState.init).2.registry.keys.count p = 1 ∧
      (start ⟨some [8000, 8001], none⟩ (fun q => q == 8001) none
        SysState.init).2.registry.lookup p = some ⟨p, none⟩ :=
  start_registers_session _ _ _ _ _ rfl (by decide) (by decide) (by decide)

/-! ### C5: exhausting a non-empty candidate list is a BindError -/

/-- C5: when every candidate in a non-empty port list fails to bind,
start fails with a BindError naming the exhausted candidates, does not
fall back to the ephemeral port (the result is the same for every
ephemeral answer), and leaves the state, registry included, unchanged. -/
theorem start_exhausted_bindError (cfg : OauthConfig) (free : Nat → Bool)
    (eph : Option Nat) (s : SysState) (l : List Nat)
    (hports : cfg.ports = some l) (hne : l ≠ [])
    (hbusy : ∀ p ∈ l, free p = false) :
    start cfg free eph s = (.error (.bindError l), s) := by
  have hfind : l.find? free = none := by
    rw [List.find?_eq_none]
    intro x hx
    simp [hbusy x hx]
  match l, hne with
  | a :: as, _ => simp [start, hports, selectPort, hfind]

/-- Concrete instance of start_exhausted_bindError: even with an
ephemeral port available, an exhausted list is an error and the state is
untouched. -/
theorem start_exhausted_bindError_witness :
    start ⟨some [8000, 8001], none⟩ (fun _ => false) (some 777) SysState.init =
      (.error (.bindError [8000, 8001]), SysState.init) :=
  start_exhausted_bindError _ _ _ _ _ rfl (by decide) (by decide)

/-! ### C4: cancel on a missing port fails, on a present port removes it -/

/-- C4: cancel on a port with no Session fails with NotRunning naming
that port and leaves the whole state, every other Session included,
unchanged; cancel on a registered port succeeds, removes exactly that
entry from the registry, releases the socket (the port leaves the bound
set) and leaves every other Session and bound port unchanged. -/
theorem cancel_spec (port : Nat) (s : SysState) :
    (s.registry.lookup port = none →
      cancel port s = (.error (.notRunning port), s)) ∧
    (∀ sess, s.registry.lookup port = some sess →
      (cancel port s).1 = .ok () ∧
      (cancel port s).2.registry.lookup port = none ∧
      port ∉ (cancel port s).2.bound ∧
      (∀ q, q ≠ port → (cancel port s).2.registry.lookup q = s.registry.lookup q) ∧
      (∀ q, q ≠ port → (q ∈ (cancel port s).2.bound ↔ q ∈ s.bound))) := by
  constructor
  · intro h
    simp [cancel, h]
  · intro sess h
    refine ⟨?_, ?_, ?_, ?_, ?_⟩
    · simp [cancel, h]
    · simp only [cancel, h]
      exact lookup_remove_self s.registry port
    · simp only [cancel, h]
      intro hmem
      rcases List.mem_filter.mp hmem with ⟨_, hbe⟩
      simp at hbe
    · intro q hq
      simp only [cancel, h]
      exact lookup_remove_ne s.registry port q hq
    · intro q hq
      simp only [cancel, h]
      rw [List.mem_filter]
      constructor
      · exact fun hh => hh.1
      · intro hh
        exact ⟨hh, by simp [hq]⟩

/-- Concrete instance of cancel_spec: a missing port fails with
NotRunning and changes nothing; a present port is removed while the other
Session survives. -/
theorem cancel_spec_witness :
    cancel 9999 ⟨[(8000, ⟨8000, none⟩)], [8000]⟩ =
      (.error (.notRunning 9999), ⟨[(8000, ⟨8000, none⟩)], [8000]⟩) ∧
    (cancel 8000 ⟨[(8000, ⟨8000, none⟩), (8001, ⟨8001, none⟩)], [8000, 8001]⟩).1 = .ok () ∧
    (cancel 8000
      ⟨[(8000, ⟨8000, none⟩), (8001, ⟨8001, none⟩)], [8000, 8001]⟩).2.registry.lookup 8000 =
        none ∧
    (cancel 8000
      ⟨[(8000, ⟨8000, none⟩), (8001, ⟨8001, none⟩)], [8000, 8001]⟩).2.registry.lookup 8001 =
        some ⟨8001, none⟩ := by
  refine ⟨(cancel_spec 9999 ⟨[(8000, ⟨8000, none⟩)], [8000]⟩).1 (by decide), ?_, ?_, ?_⟩
  · exact ((cancel_spec 8000
      ⟨[(8000, ⟨8000, none⟩), (8001, ⟨8001, none⟩)], [8000, 8001]⟩).2 ⟨8000, none⟩
      (by decide)).1
  · exact ((cancel_spec 8000
      ⟨[(8000, ⟨8000, none⟩), (8001, ⟨8001, none⟩)], [8000, 8001]⟩).2 ⟨8000, none⟩
      (by decide)).2.1
  · rw [((cancel_spec 8000
      ⟨[(8000, ⟨8000, none⟩), (8001, ⟨8001, none⟩)], [8000, 8001]⟩).2 ⟨8000, none⟩
      (by decide)).2.2.2.1 8001 (by decide)]
    decide

/-! ### C7: the registry tracks exactly the bound listeners -/

/-- Modelled from the spec: the operations that change the system state:
a start call (under the environmental facts that a port this process has
bound is not reported bindable and an OS-granted ephemeral port is not
one this process has bound), a cancel call, and process-wide teardown. -/
inductive Step : SysState → SysState → Prop where
  | startStep (cfg : OauthConfig) (free : Nat → Bool) (eph : Option Nat) (s : SysState)
      (hfree : ∀ q ∈ s.bound, free q = false)
      (heph : ∀ p, eph = some p → p ∉ s.bound) :
      Step s (start cfg free eph s).2
  | cancelStep (port : Nat) (s : SysState) : Step s (cancel port s).2
  | teardownStep (s : SysState) : Step s (teardown s)

/-- The states reachable from the initial empty state through the
operations. -/
inductive Reachable : SysState → Prop where
  | init : Reachable SysState.init
  | step {s t : SysState} : Reachable s → Step s t → Reachable t

/-- The registry invariant of the spec: a port is a registry key exactly
when this process holds a bound listener on it, and keys are unique, so
at most one Session is registered per port. -/
def Invariant (s : SysState) : Prop :=
  (∀ p, p ∈ s.registry.keys ↔ p ∈ s.bound) ∧ s.registry.keys.Nodup

/-- The registry keys of a cons. -/
lemma keys_cons (e : Nat × Session) (es : SessionRegistry) :
    SessionRegistry.keys (e :: es) = e.1 :: SessionRegistry.keys es := rfl

/-- Every single operation preserves the registry invariant. -/
lemma step_preserves_invariant (s t : SysState) (hst : Step s t)
    (ih : Invariant s) : Invariant t := by
  cases hst with
  | startStep cfg free eph _ hfree heph =>
    cases hsel : selectPort free eph cfg.ports with
    | error e =>
      simpa [start, hsel] using ih
    | ok p =>
      have hpb : p ∉ s.bound := by
        rcases selectPort_ok_cases free eph cfg.ports p hsel with hf | he
        · intro hmem
          rw [hfree p hmem] at hf
          cases hf
        · exact heph p he
      have hpk : p ∉ s.registry.keys := fun hk => hpb ((ih.1 p).mp hk)
      constructor
      · intro q
        simp only [start, hsel, keys_cons, List.mem_cons]
        rw [ih.1 q]
      · simp only [start, hsel, keys_cons, List.nodup_cons]
        exact ⟨hpk, ih.2⟩
  | cancelStep port =>
    cases hl : s.registry.lookup port with
    | none =>
      simpa [cancel, hl] using ih
    | some sess =>
      constructor
      · intro q
        simp only [cancel, hl]
        rw [keys_remove, List.mem_filter, List.mem_filter]
        rw [ih.1 q]
      · simp only [cancel, hl]
        rw [keys_remove]
        exact ih.2.filter _
  | teardownStep =>
    exact ⟨fun p => by simp [teardown, SysState.init, SessionRegistry.keys], by
      simp [teardown, SysState.init, SessionRegistry.keys]⟩

/-- C7: in every reachable state, a port appears as a registry key if
and only if a listener is currently bound on that port by this process,
and at most one Session is registered per port; every operation (start,
cancel, teardown) preserves this. -/
theorem registry_bound_invariant (s : SysState) (h : Reachable s) : Invariant s := by
  induction h with
  | init => exact ⟨fun p => by simp [SysState.init, SessionRegistry.keys], by
      simp [SysState.init, SessionRegistry.keys]⟩
  | step hr hst ih => exact step_preserves_invariant _ _ hst ih

/-- Concrete instance of registry_bound_invariant: the state after a
successful start followed by a cancel of a missing port satisfies the
invariant. -/
theorem registry_bound_invariant_witness :
    Invariant (cancel 9999 (start ⟨some [8000], none⟩ (fun q => q == 8000) none
      SysState.init).2).2 :=
  registry_bound_invariant _
    (Reachable.step
      (Reachable.step Reachable.init
        (Step.startStep ⟨some [8000], none⟩ (fun q => q == 8000) none SysState.init
          (by intro q hq; simp [SysState.init] at hq)
          (by intro p hp; cases hp)))
      (Step.cancelStep 9999 _))

/-! ### C2: validity bar and captured payload of the parser -/

/-- C2: a connection is classified valid exactly when its request parses
as an HTTP GET whose query string is non-empty; a valid connection yields
a captured redirect carrying the full original URL and the decoded query
parameters, and the example request produces the expected parameters
while non-GET or query-less requests produce invalid redirects with a
reason. -/
theorem classifyRequest_valid_iff (req : String) :
    ((classifyRequest req).isCaptured = isValidRedirectRequest req) ∧
    (∀ t v q, parseRequestLine (firstLine req) = some ("GET", t, v) →
      queryOf t = some q → q ≠ "" →
      classifyRequest req = .captured t (parseQuery q)) ∧
    classifyRequest "GET /?code=abc&state=xyz HTTP/1.1" =
      .captured "/?code=abc&state=xyz" [("code", "abc"), ("state", "xyz")] ∧
    classifyRequest "POST /?code=abc HTTP/1.1" = .invalid "unsupported method: POST" ∧
    classifyRequest "GET / HTTP/1.1" = .invalid "missing query string" := by
  refine ⟨?_, ?_, by decide, by decide, by decide⟩
  · unfold classifyRequest isValidRedirectRequest
    cases hp : parseRequestLine (firstLine req) with
    | none => simp [OauthEvent.isCaptured]
    | some mtv =>
      obtain ⟨m, t, v⟩ := mtv
      by_cases hm : m = "GET"
      · subst hm
        simp only [bne_self_eq_false, Bool.false_eq_true, if_false, beq_self_eq_true,
          Bool.true_and]
        cases hq : queryOf t with
        | none => simp [OauthEvent.isCaptured]
        | some q =>
          by_cases hq0 : q = ""
          · subst hq0
            simp [OauthEvent.isCaptured]
          · simp [OauthEvent.isCaptured, hq0]
      · simp [OauthEvent.isCaptured, hm]
  · intro t v q hp hq hq0
    unfold classifyRequest
    rw [hp]
    simp only [bne_self_eq_false, Bool.false_eq_true, if_false]
    rw [hq]
    simp [hq0]

/-- Concrete instance of classifyRequest_valid_iff: the captured
conjunct applied to a request parsed into its pieces. -/
theorem classifyRequest_valid_iff_witness :
    classifyRequest "GET /?a=b HTTP/1.1" = .captured "/?a=b" (parseQuery "a=b") :=
  (classifyRequest_valid_iff "GET /?a=b HTTP/1.1").2.1 "/?a=b" "HTTP/1.1" "a=b"
    (by decide) (by decide) (by decide)

/-! ### C3: the Responder always answers 200 text/html with the resolved body -/

/-- C3: for every accepted connection, valid or invalid, the response
has status 200, Content-Type text/html, and its body is the configured
response verbatim when one was supplied and the built-in default page
otherwise. -/
theorem responder_always_200 (cfg : OauthConfig) (req : String) :
    (handleConn cfg req).1.status = 200 ∧
    (handleConn cfg req).1.contentType = "text/html" ∧
    (handleConn cfg req).1.body = cfg.response.getD defaultResponseBody ∧
    (∀ r, cfg.response = some r → (handleConn cfg req).1.body = r) ∧
    (cfg.response = none → (handleConn cfg req).1.body = defaultResponseBody) := by
  refine ⟨rfl, rfl, rfl, ?_, ?_⟩
  · intro r h
    simp [handleConn, respond, h]
  · intro h
    simp [handleConn, respond, h]

/-- Concrete instance of responder_always_200: a configured body is
served verbatim even for an invalid request, and the default body is
served when none is configured. -/
theorem responder_always_200_witness :
    (handleConn ⟨none, some "custom"⟩ "POST / HTTP/1.1").1.body = "custom" ∧
    (handleConn ⟨none, none⟩ "GET /?a=1 HTTP/1.1").1.body = defaultResponseBody ∧
    (handleConn ⟨none, some "custom"⟩ "POST / HTTP/1.1").1.status = 200 :=
  ⟨(responder_always_200 ⟨none, some "custom"⟩ "POST / HTTP/1.1").2.2.2.1 "custom" rfl,
   (responder_always_200 ⟨none, none⟩ "GET /?a=1 HTTP/1.1").2.2.2.2 rfl,
   (responder_always_200 ⟨none, some "custom"⟩ "POST / HTTP/1.1").1⟩

/-! ### C6: exactly one event per parsed connection, to all subscribers -/

/-- C6: every connection that completes parsing contributes exactly one
event to the session trace, at its own position and of one of the two
kinds by construction, never both and never neither; and one emission
reaches every current subscriber of that event's channel exactly once. -/
theorem one_event_per_connection {α : Type} (cfg : OauthConfig)
    (conns : List String) (bus : EventBus α) (ev : OauthEvent) :
    (runSession cfg conns).length = conns.length ∧
    (∀ i : Nat, (runSession cfg conns)[i]? = (conns[i]?).map (connEvent cfg)) ∧
    (emitEvent ev bus).map Prod.fst =
      (bus.subscribers.filter (fun l => l.channel == eventChannel ev)).map
        (fun l => l.id) := by
  refine ⟨?_, ?_, ?_⟩
  · rw [runSession_eq_map]
    exact List.length_map conns (connEvent cfg)
  · intro i
    rw [runSession_eq_map]
    exact List.getElem?_map (connEvent cfg) conns i
  · simp [emitEvent, emit, List.map_map]

/-! ### C8: per-session events are emitted in acceptance order -/

/-- C8: for any two connections accepted on the same Session, the event
of the earlier-accepted connection occupies the earlier trace position:
connection i yields the event at position i and connection j the event
at position j, with i before j. -/
theorem session_events_ordered (cfg : OauthConfig) (conns : List String)
    (i j : Nat) (hij : i < j) (hj : j < conns.length) :
    i < j ∧
    (runSession cfg conns)[i]? = some (connEvent cfg (conns.get ⟨i, lt_trans hij hj⟩)) ∧
    (runSession cfg conns)[j]? = some (connEvent cfg (conns.get ⟨j, hj⟩)) := by
  have hi : i < conns.length := lt_trans hij hj
  refine ⟨hij, ?_, ?_⟩
  · rw [runSession_eq_map, List.getElem?_map, List.getElem?_eq_getElem hi]
    simp [List.get_eq_getElem]
  · rw [runSession_eq_map, List.getElem?_map, List.getElem?_eq_getElem hj]
    simp [List.get_eq_getElem]

/-- Concrete instance of session_events_ordered on a two-connection
session. -/
theorem session_events_ordered_witness :
    0 < 1 ∧
    (runSession ⟨none, none⟩ ["GET /?a=1 HTTP/1.1", "POST / HTTP/1.1"])[0]? =
      some (connEvent ⟨none, none⟩ "GET /?a=1 HTTP/1.1") ∧
    (runSession ⟨none, none⟩ ["GET /?a=1 HTTP/1.1", "POST / HTTP/1.1"])[1]? =
      some (connEvent ⟨none, none⟩ "POST / HTTP/1.1") :=
  session_events_ordered ⟨none, none⟩ ["GET /?a=1 HTTP/1.1", "POST / HTTP/1.1"] 0 1
    (by decide) (by decide)

/-! ### C9: deregistration stops deliveries to that subscriber only -/

/-- C9: a subscriber registered through onUrl or onInvalidUrl receives a
deregistration handle; deregistering removes exactly that subscriber, so
no further emission delivers to it, while the deliveries every other
subscriber receives are unchanged. -/
theorem unlisten_stops_deliveries {α : Type} (bus : EventBus α)
    (cb : String → α) (ech payload : String)
    (hfresh : ∀ l ∈ bus.subscribers, l.id ≠ bus.nextId) :
    (unlisten (onUrl cb bus).1 (onUrl cb bus).2).subscribers = bus.subscribers ∧
    emit ech payload (unlisten (onUrl cb bus).1 (onUrl cb bus).2) =
      emit ech payload bus ∧
    (∀ d ∈ emit ech payload (unlisten (onUrl cb bus).1 (onUrl cb bus).2),
      d.1 ≠ (onUrl cb bus).1) ∧
    (unlisten (onInvalidUrl cb bus).1 (onInvalidUrl cb bus).2).subscribers =
      bus.subscribers := by
  have hself : ∀ (ch : String) (handler : TauriEvent → α),
      (unlisten (listen ch handler bus).1 (listen ch handler bus).2).subscribers =
        bus.subscribers := by
    intro ch handler
    simp only [listen, unlisten, List.filter_append]
    rw [List.filter_eq_self.mpr (fun l hl => by simp [hfresh l hl])]
    simp
  have h1 : (unlisten (onUrl cb bus).1 (onUrl cb bus).2).subscribers =
      bus.subscribers := hself urlChannel _
  have h2 : emit ech payload (unlisten (onUrl cb bus).1 (onUrl cb bus).2) =
      emit ech payload bus := by
    simp only [emit, h1]
  refine ⟨h1, h2, ?_, hself invalidUrlChannel _⟩
  intro d hd
  rw [h2] at hd
  simp only [emit, List.mem_map] at hd
  obtain ⟨l, hl, rfl⟩ := hd
  have hlm : l ∈ bus.subscribers := (List.mem_filter.mp hl).1
  exact hfresh l hlm

/-- Concrete instance of unlisten_stops_deliveries on the empty bus. -/
theorem unlisten_stops_deliveries_witness :
    (unlisten (onUrl (fun s => s) (EventBus.empty : EventBus String)).1
        (onUrl (fun s => s) (EventBus.empty : EventBus String)).2).subscribers =
      (EventBus.empty : EventBus String).subscribers ∧
    emit "oauth://url" "payload"
        (unlisten (onUrl (fun s => s) (EventBus.empty : EventBus String)).1
          (onUrl (fun s => s) (EventBus.empty : EventBus String)).2) =
      emit "oauth://url" "payload" (EventBus.empty : EventBus String) ∧
    (∀ d ∈ emit "oauth://url" "payload"
        (unlisten (onUrl (fun s => s) (EventBus.empty : EventBus String)).1
          (onUrl (fun s => s) (EventBus.empty : EventBus String)).2),
      d.1 ≠ (onUrl (fun s => s) (EventBus.empty : EventBus String)).1) ∧
    (unlisten (onInvalidUrl (fun s => s) (EventBus.empty : EventBus String)).1
        (onInvalidUrl (fun s => s) (EventBus.empty : EventBus String)).2).subscribers =
      (EventBus.empty : EventBus String).subscribers :=
  unlisten_stops_deliveries EventBus.empty (fun s => s) "oauth://url" "payload"
    (by intro l hl; cases hl)

/-! ### C10: each callback sees exactly its own event kind, payload intact -/

/-- Deliveries to a freshly appended subscriber: its handler is invoked
with the raw payload exactly when the emission channel matches its
channel, and the older subscribers never alias its identifier. -/
lemma deliveredTo_emit_append {α : Type} (subs : List (Subscriber α)) (m n : Nat)
    (ch ch2 payload : String) (handler : TauriEvent → α)
    (hfresh : ∀ l ∈ subs, l.id ≠ n) :
    deliveredTo n (emit ch payload ⟨subs ++ [⟨n, ch2, handler⟩], m⟩) =
      if ch2 = ch then [handler ⟨payload⟩] else [] := by
  induction subs with
  | nil =>
    by_cases h : ch2 = ch <;>
      simp [emit, deliveredTo, List.filter_cons, h]
  | cons l ls ih =>
    have hl : l.id ≠ n := hfresh l (List.mem_cons_self l ls)
    have ih2 := ih (fun x hx => hfresh x (List.mem_cons_of_mem l hx))
    by_cases hc : l.channel = ch
    · simp only [emit, List.cons_append, List.filter_cons, hc] at ih2 ⊢
      simp only [beq_self_eq_true, if_true, List.map_cons, deliveredTo,
        List.filter_cons] at ih2 ⊢
      have : ((l.id, l.handler ⟨payload⟩).1 == n) = false := by
        simp [hl]
      rw [this]
      simp only [Bool.false_eq_true, if_false]
      exact ih2
    · simp only [emit, List.cons_append, List.filter_cons] at ih2 ⊢
      have : (l.channel == ch) = false := by simp [hc]
      rw [this]
      simp only [Bool.false_eq_true, if_false]
      exact ih2

/-- C10: a callback registered through onUrl is invoked exactly for
captured-redirect events and one registered through onInvalidUrl exactly
for invalid-redirect events, each receiving the event's payload string
unmodified; neither is ever invoked for the other kind. -/
theorem callbacks_routed_by_kind {α : Type} (bus : EventBus α) (cb : String → α)
    (ev : OauthEvent) (hfresh : ∀ l ∈ bus.subscribers, l.id ≠ bus.nextId) :
    deliveredTo (onUrl cb bus).1 (emitEvent ev (onUrl cb bus).2) =
      (match ev with
       | .captured url _ => [cb url]
       | .invalid _ => []) ∧
    deliveredTo (onInvalidUrl cb bus).1 (emitEvent ev (onInvalidUrl cb bus).2) =
      (match ev with
       | .captured _ _ => []
       | .invalid reason => [cb reason]) := by
  cases ev with
  | captured url ps =>
    constructor
    · have h := deliveredTo_emit_append bus.subscribers (bus.nextId + 1) bus.nextId
        urlChannel urlChannel url (fun e => cb e.payload) hfresh
      simp only [onUrl, listen, emitEvent, eventChannel, eventPayload]
      rw [h]
      simp
    · have h := deliveredTo_emit_append bus.subscribers (bus.nextId + 1) bus.nextId
        urlChannel invalidUrlChannel url (fun e => cb e.payload) hfresh
      simp only [onInvalidUrl, listen, emitEvent, eventChannel, eventPayload]
      rw [h]
      rw [if_neg (by decide)]
  | invalid reason =>
    constructor
    · have h := deliveredTo_emit_append bus.subscribers (bus.nextId + 1) bus.nextId
        invalidUrlChannel urlChannel reason (fun e => cb e.payload) hfresh
      simp only [onUrl, listen, emitEvent, eventChannel, eventPayload]
      rw [h]
      rw [if_neg (by decide)]
    · have h := deliveredTo_emit_append bus.subscribers (bus.nextId + 1) bus.nextId
        invalidUrlChannel invalidUrlChannel reason (fun e => cb e.payload) hfresh
      simp only [onInvalidUrl, listen, emitEvent, eventChannel, eventPayload]
      rw [h]
      simp

/-- Concrete instance of callbacks_routed_by_kind: a captured event is
delivered to the onUrl callback with its URL intact and never to the
onInvalidUrl callback. -/
theorem callbacks_routed_by_kind_witness :
    deliveredTo (onUrl (fun s => s) (EventBus.empty : EventBus String)).1
        (emitEvent (.captured "/cb?code=1" [("code", "1")])
          (onUrl (fun s => s) (EventBus.empty : EventBus String)).2) = ["/cb?code=1"] ∧
    deliveredTo (onInvalidUrl (fun s => s) (EventBus.empty : EventBus String)).1
        (emitEvent (.captured "/cb?code=1" [("code", "1")])
          (onInvalidUrl (fun s => s) (EventBus.empty : EventBus String)).2) = [] :=
  callbacks_routed_by_kind EventBus.empty (fun s => s)
    (.captured "/cb?code=1" [("code", "1")]) (by intro l hl; cases hl)

end Oauth
